/-
Verification of the recipe-recommender frontend against its specification.

The repository's source under `src/` is the React/TypeScript presentation
layer (`RecipeGridWithBackend`, `RecipeGrid`, `RecipeCardWithSimilarity`,
`RecipeCard`, `Hero`, `Index`).  The ingredient-similarity engine
(Normalizer/Vectorizer/Ranker/QueryService) is described by the spec but its
code is not part of `src/`; where a claim needs it, the corresponding
definitions are modelled from the spec and marked as such in their doc
comments.

Strings are modelled on `String.data : List Char`; JavaScript `number`
values are modelled as `ℚ`; `undefined`-able fields as `Option`.
-/
import Mathlib

namespace RecipeRec

/-! ### JavaScript string primitives used by the client code -/

/-- Characters treated as whitespace by JavaScript: the ECMAScript
WhiteSpace and LineTerminator sets (TAB, LF, VT, FF, CR, SP, NBSP, ZWNBSP,
the Unicode space separators, LS and PS).  Both `String.prototype.trim` and
the regex class in a split pattern use this set. -/
def jsWhitespace (c : Char) : Bool :=
  c = ' ' || c = Char.ofNat 0x09 || c = Char.ofNat 0x0a || c = Char.ofNat 0x0b ||
  c = Char.ofNat 0x0c || c = Char.ofNat 0x0d || c = Char.ofNat 0xa0 ||
  c = Char.ofNat 0xfeff || c = Char.ofNat 0x1680 ||
  (0x2000 ≤ c.toNat && c.toNat ≤ 0x200a) ||
  c = Char.ofNat 0x2028 || c = Char.ofNat 0x2029 ||
  c = Char.ofNat 0x202f || c = Char.ofNat 0x205f || c = Char.ofNat 0x3000

/-- `String.prototype.trim` on the underlying character list: drop leading
and trailing whitespace. -/
def jsTrimList (l : List Char) : List Char :=
  ((l.dropWhile jsWhitespace).reverse.dropWhile jsWhitespace).reverse

/-- `String.prototype.trim`. -/
def jsTrim (s : String) : String := ⟨jsTrimList s.data⟩

/-- Does the list `l` start with the list `pat`? (helper for substring and
path-prefix tests). -/
def listStarts : List Char → List Char → Bool
  | _, [] => true
  | [], _ :: _ => false
  | c :: cs, d :: ds => c = d && listStarts cs ds

/-- Does `l` contain `sub` as a contiguous sublist?  This is
`String.prototype.includes` on character lists. -/
def listHasSub : List Char → List Char → Bool
  | [], sub => sub.isEmpty
  | c :: cs, sub => listStarts (c :: cs) sub || listHasSub cs sub

/-- `String.prototype.includes`. -/
def jsIncludes (s sub : String) : Bool := listHasSub s.data sub.data

/-- `String.prototype.toLowerCase` (ASCII-faithful). -/
def jsToLower (s : String) : String := ⟨s.data.map Char.toLower⟩

/-- The character class `[,\s]` of the search query split regex in both grid
variants: a comma or a JavaScript whitespace character. -/
def sepChar (c : Char) : Bool := c = ',' || jsWhitespace c

/-- Prepend a character to the first fragment of a fragment list (helper for
the regex split). -/
def consHead (c : Char) : List (List Char) → List (List Char)
  | [] => [[c]]
  | f :: rest => (c :: f) :: rest

/-- `str.split(re)` where `re` matches maximal nonempty runs of characters
satisfying `sep` (as `/[,\s]+/` does): fragments are the text between
maximal separator runs, keeping leading/trailing empty fragments exactly as
JavaScript does (`",".split(/[,\s]+/)` is `["", ""]`). -/
def splitRuns (sep : Char → Bool) : List Char → List (List Char)
  | [] => [[]]
  | [c] => if sep c then [[], []] else [[c]]
  | c :: c2 :: cs =>
    if sep c then
      if sep c2 then splitRuns sep (c2 :: cs) else [] :: splitRuns sep (c2 :: cs)
    else consHead c (splitRuns sep (c2 :: cs))

/-- The ingredient list the search handler builds from the search box text
(`RecipeGridWithBackend` line 110, and likewise `RecipeGrid` lines 51-54):
`searchQuery.split(/[,\s]+/).filter(ing => ing.trim().length > 0)`. -/
def parseIngredients (searchQuery : String) : List String :=
  ((splitRuns sepChar searchQuery.data).map (fun l => String.mk l)).filter
    (fun ing => 0 < (jsTrim ing).length)

/-! ### Data model of the presentation layer -/

/-- Optional nutrition facts (`BackendRecipe.nutrition` in
`RecipeGridWithBackend`). -/
structure Nutrition where
  calories : Option ℚ
  protein : Option ℚ
  fat : Option ℚ
  carbs : Option ℚ
deriving DecidableEq

/-- The `BackendRecipe` interface of `RecipeGridWithBackend`. -/
structure BackendRecipe where
  id : String
  title : String
  description : String
  image : String
  cookTime : ℚ
  servings : ℚ
  rating : ℚ
  category : String
  difficulty : String
  ingredients : List String
  instructions : List String
  nutrition : Nutrition
  similarityScore : Option ℚ
deriving DecidableEq

/-- The `Recipe` interface exported by `RecipeCard` and consumed by the
`RecipeGrid` variant (no similarity score field). -/
structure CardRecipe where
  id : String
  title : String
  description : String
  image : String
  cookTime : ℚ
  servings : ℚ
  rating : ℚ
  category : String
  difficulty : String
  ingredients : List String
  instructions : List String
deriving DecidableEq

/-- The `Recipe` interface exported by `RecipeCardWithSimilarity`
(with the optional `similarityScore`). -/
structure SimCardRecipe where
  id : String
  title : String
  description : String
  image : String
  cookTime : ℚ
  servings : ℚ
  rating : ℚ
  category : String
  difficulty : String
  ingredients : List String
  instructions : List String
  similarityScore : Option ℚ
deriving DecidableEq

/-- `convertToRecipeCardFormat` of `RecipeGridWithBackend` (lines 202-217):
field-by-field copy dropping `nutrition`. -/
def convertToRecipeCardFormat (backendRecipe : BackendRecipe) : SimCardRecipe :=
  { id := backendRecipe.id
    title := backendRecipe.title
    description := backendRecipe.description
    image := backendRecipe.image
    cookTime := backendRecipe.cookTime
    servings := backendRecipe.servings
    rating := backendRecipe.rating
    category := backendRecipe.category
    difficulty := backendRecipe.difficulty
    ingredients := backendRecipe.ingredients
    instructions := backendRecipe.instructions
    similarityScore := backendRecipe.similarityScore }

/-! ### Client-side category filter (both grid variants) -/

/-- `filteredRecipes` of `RecipeGridWithBackend` (lines 183-190): keep the
batch as is for `All`, otherwise keep the recipes whose lowercased category
contains the lowercased selected category as a substring. -/
def filteredRecipes (recipes : List BackendRecipe) (selectedCategory : String) :
    List BackendRecipe :=
  if selectedCategory = "All" then recipes
  else recipes.filter fun recipe =>
    jsIncludes (jsToLower recipe.category) (jsToLower selectedCategory)

/-- `filteredRecipes` of the `RecipeGrid` variant (lines 81-88).  The
source guards `recipe.category?.toLowerCase()` with optional chaining, but
the `Recipe` interface makes `category` a required string, so the guard is
the identity. -/
def filteredRecipesGrid (recipes : List CardRecipe) (selectedCategory : String) :
    List CardRecipe :=
  if selectedCategory = "All" then recipes
  else recipes.filter fun recipe =>
    jsIncludes (jsToLower recipe.category) (jsToLower selectedCategory)

/-- Modelled from the spec: the server-side category lookup (§4.6,
`byCategory`) uses an exact, case-normalized match; the code of the engine
is not in the repository snapshot. -/
def byCategoryExact (recipes : List BackendRecipe) (category : String) :
    List BackendRecipe :=
  recipes.filter fun recipe => jsToLower recipe.category = jsToLower category

/-- The cards `RecipeGridWithBackend` renders (line 298): the filtered batch
in order, converted to the card format. -/
def renderedCards (recipes : List BackendRecipe) (selectedCategory : String) :
    List SimCardRecipe :=
  (filteredRecipes recipes selectedCategory).map convertToRecipeCardFormat

/-! ### Search handler of `RecipeGridWithBackend` (lines 86-144) -/

/-- One HTTP request the client issues. -/
inductive ApiRequest where
  | get (path : String)
  | post (path : String) (ingredients : List String) (topN : ℤ)
deriving DecidableEq

/-- The request the search effect issues for a given search box text
(lines 88-121): a whitespace-only query is falsy after `trim()` and leads to
the random-batch reload; otherwise the split-and-filtered ingredient list is
POSTed to the search endpoint with `top_n: 12`. -/
def searchEffectRequest (searchQuery : String) : ApiRequest :=
  if jsTrim searchQuery = "" then .get "/api/recipes/random?count=50"
  else .post "/api/recipes/search" (parseIngredients searchQuery) 12

/-- Outcome of a `fetch` as the handler distinguishes it: a response with
`ok` and a parsed JSON body, a response with `!ok`, or a thrown error. -/
inductive FetchResult (α : Type) where
  | ok (body : α)
  | notOk
  | netError
deriving DecidableEq

/-- The component state the search handler touches. -/
structure GridState where
  recipes : List BackendRecipe
  error : Option String
  isSearching : Bool
deriving DecidableEq

/-- The message set on an ok-but-empty search result (line 128). -/
def noMatchMsg : String :=
  "No recipes found for your ingredients. Try different ingredients or check spelling."

/-- The message set on a failed search (lines 131 and 135). -/
def searchFailMsg : String := "Search failed. Please try again."

/-- Net effect of the search handler's response processing (lines 105-138)
on the component state: `setError(null)` up front; on `ok` the recipes are
replaced and the no-match message appears only for an empty array; on `!ok`
or a thrown error the recipes are untouched and the failure message is set;
`setIsSearching(false)` in `finally`. -/
def applySearchResponse (st : GridState) (resp : FetchResult (List BackendRecipe)) :
    GridState :=
  match resp with
  | .ok results =>
    { st with recipes := results
              error := if results.length = 0 then some noMatchMsg else none
              isSearching := false }
  | .notOk => { st with error := some searchFailMsg, isSearching := false }
  | .netError => { st with error := some searchFailMsg, isSearching := false }

/-! ### Every fetch call site of the presentation layer (claim C5) -/

/-- The `fetch` call sites of the presentation layer: five in
`RecipeGridWithBackend` (lines 47, 67, 92, 112, 157, 160) and three in the
`RecipeGrid` variant (lines 13, 21, 35). -/
inductive ClientCall where
  | loadCategories
  | loadInitialRecipes
  | searchRandom
  | search
  | categoryRandom
  | byCategory (selectedCategory : String)
  | fetchRecipes
  | searchByIngredients
  | fetchCategories
deriving DecidableEq

/-- Hexadecimal digit (uppercase) of a value below 16. -/
def hexDigit (n : Nat) : Char :=
  if n < 10 then Char.ofNat (48 + n) else Char.ofNat (55 + n)

/-- UTF-8 bytes of a character. -/
def utf8Bytes (c : Char) : List Nat :=
  let n := c.toNat
  if n < 0x80 then [n]
  else if n < 0x800 then [0xc0 + n / 0x40, 0x80 + n % 0x40]
  else if n < 0x10000 then
    [0xe0 + n / 0x1000, 0x80 + (n / 0x40) % 0x40, 0x80 + n % 0x40]
  else
    [0xf0 + n / 0x40000, 0x80 + (n / 0x1000) % 0x40,
      0x80 + (n / 0x40) % 0x40, 0x80 + n % 0x40]

/-- Characters `encodeURIComponent` leaves unescaped. -/
def uriUnreserved (c : Char) : Bool :=
  (65 ≤ c.toNat && c.toNat ≤ 90) || (97 ≤ c.toNat && c.toNat ≤ 122) ||
  (48 ≤ c.toNat && c.toNat ≤ 57) ||
  c = '-' || c = '_' || c = '.' || c = '!' || c = '~' || c = '*' ||
  c = Char.ofNat 39 || c = '(' || c = ')'

/-- JavaScript `encodeURIComponent`: unreserved characters pass through,
everything else is percent-encoded per UTF-8 byte. -/
def encodeURIComponent (s : String) : String :=
  ⟨s.data.flatMap fun c =>
    if uriUnreserved c then [c]
    else (utf8Bytes c).flatMap fun b => ['%', hexDigit (b / 16), hexDigit (b % 16)]⟩

/-- The path each call site targets, read off the `fetch` URLs of the
source (the `API_BASE_URL` origin stripped). -/
def requestPath : ClientCall → String
  | .loadCategories => "/api/recipes/categories"
  | .loadInitialRecipes => "/api/recipes/random?count=50"
  | .searchRandom => "/api/recipes/random?count=50"
  | .search => "/api/recipes/search"
  | .categoryRandom => "/api/recipes/random?count=20"
  | .byCategory selectedCategory =>
      "/api/recipes/by-category/" ++ encodeURIComponent selectedCategory
  | .fetchRecipes => "/api/recipes"
  | .searchByIngredients => "/api/recipes/search"
  | .fetchCategories => "/api/recipes/categories"

/-- Does a path target one of the five endpoints of the spec's HTTP surface
(§6)? `random` and `by-category` are parameterized, so they are matched by
their fixed initial segment. -/
def specEndpoint (p : String) : Bool :=
  p = "/api/recipes/search" ||
  listStarts p.data ("/api/recipes/random").data ||
  listStarts p.data ("/api/recipes/by-category/").data ||
  p = "/api/recipes/categories" ||
  p = "/api/health"

/-! ### Similarity badge (`RecipeCardWithSimilarity`, claims C8 and C9) -/

/-- JavaScript truthiness of an optional number (`undefined`, `0` and `NaN`
are falsy; `NaN` cannot arise from the JSON scores modelled here). -/
def numTruthy (x : Option ℚ) : Bool :=
  match x with
  | none => false
  | some v => v ≠ 0

/-- The `showSimilarityScore` prop `RecipeGridWithBackend` passes to each
card (line 303): `!!searchQuery.trim() && !!recipe.similarityScore`. -/
def showSimilarityScoreFlag (searchQuery : String) (recipe : BackendRecipe) : Bool :=
  (jsTrim searchQuery ≠ "") && numTruthy recipe.similarityScore

/-- The render guard of the similarity badge in `RecipeCardWithSimilarity`
(line 47): `showSimilarityScore && recipe.similarityScore`. -/
def badgeRendered (flag : Bool) (recipe : SimCardRecipe) : Bool :=
  flag && numTruthy recipe.similarityScore

/-- `formatSimilarityScore` (lines 30-32): `Math.round(score * 100)`;
JavaScript `Math.round` is floor of the argument plus one half. -/
def formatSimilarityScore (score : ℚ) : ℤ := ⌊score * 100 + 1 / 2⌋

/-- The four Tailwind color classes of the badge. -/
inductive BadgeColor where
  | green
  | yellow
  | orange
  | red
deriving DecidableEq

/-- `getSimilarityColor` (lines 34-40): thresholds on `score * 100`. -/
def getSimilarityColor (score : ℚ) : BadgeColor :=
  if 80 ≤ score * 100 then .green
  else if 60 ≤ score * 100 then .yellow
  else if 40 ≤ score * 100 then .orange
  else .red

/-! ### Category button lists (claim C10) -/

/-- `allCategories` of the `RecipeGrid` variant (line 101):
`['All', ...categories.slice(0, 10)]`. -/
def allCategories (categories : List String) : List String :=
  "All" :: categories.take 10

/-- The categories state of `RecipeGridWithBackend` after a successful load
(line 50): `['All', ...categoryData]` with no cap. -/
def backendCategories (categoryData : List String) : List String :=
  "All" :: categoryData

/-! ### Ranker, modelled from the spec (§4.4, §7)

The ranking engine's code is not part of the repository snapshot; these
definitions are modelled from the spec's words and every claim settled
against them says so. -/

/-- Modelled from the spec: one indexed recipe as the Ranker sees it — a
stable id, its rating (the secondary tie-break key) and its L2-normalized
(or zero) TF-IDF vector over a vocabulary of size `n` (§3, §4.3). -/
structure IndexedRecipe (n : Nat) where
  id : Nat
  rating : ℚ
  vec : Fin n → ℚ

/-- One entry of the Ranker's output: `(recipeId, score)` joined with the
rating used by the tie-break. -/
structure RankEntry where
  recipeId : Nat
  score : ℚ
  rating : ℚ
deriving DecidableEq

/-- Modelled from the spec: cosine similarity of two already-normalized
vectors reduces to their dot product (§4.4). -/
def dotProduct {n : Nat} (q v : Fin n → ℚ) : ℚ := ∑ i, q i * v i

/-- The spec's deterministic ranking order (§4.4): score descending, then
rating descending, then id ascending. -/
def rankLE (a b : RankEntry) : Prop :=
  b.score < a.score ∨ (a.score = b.score ∧
    (b.rating < a.rating ∨ (a.rating = b.rating ∧ a.recipeId ≤ b.recipeId)))

instance : DecidableRel rankLE := fun a b => by unfold rankLE; infer_instance

instance : IsTotal RankEntry rankLE := by
  constructor
  intro a b
  unfold rankLE
  rcases lt_trichotomy a.score b.score with h | h | h
  · exact Or.inr (Or.inl h)
  · rcases lt_trichotomy a.rating b.rating with h2 | h2 | h2
    · exact Or.inr (Or.inr ⟨h.symm, Or.inl h2⟩)
    · rcases le_total a.recipeId b.recipeId with h3 | h3
      · exact Or.inl (Or.inr ⟨h, Or.inr ⟨h2, h3⟩⟩)
      · exact Or.inr (Or.inr ⟨h.symm, Or.inr ⟨h2.symm, h3⟩⟩)
    · exact Or.inl (Or.inr ⟨h, Or.inl h2⟩)
  · exact Or.inl (Or.inl h)

instance : IsTrans RankEntry rankLE := by
  constructor
  intro a b c hab hbc
  unfold rankLE at *
  rcases hab with h1 | ⟨h1, h1'⟩ <;> rcases hbc with h2 | ⟨h2, h2'⟩
  · exact Or.inl (h2.trans h1)
  · exact Or.inl (h2 ▸ h1)
  · exact Or.inl (h1 ▸ h2)
  · refine Or.inr ⟨h1.trans h2, ?_⟩
    rcases h1' with h3 | ⟨h3, h3'⟩ <;> rcases h2' with h4 | ⟨h4, h4'⟩
    · exact Or.inl (h4.trans h3)
    · exact Or.inl (h4 ▸ h3)
    · exact Or.inl (h3 ▸ h4)
    · exact Or.inr ⟨h3.trans h4, h3'.trans h4'⟩

/-- Modelled from the spec: the request-level error taxonomy (§7); the
Ranker's `InvalidArgument` on `topN ≤ 0` is surfaced as `InvalidQuery`. -/
inductive SearchError where
  | invalidQuery
deriving DecidableEq

/-- Modelled from the spec: the Ranker's full scan — every indexed recipe is
scored against the query vector (§4.4). -/
def scoreEntries {n : Nat} (q : Fin n → ℚ) (idx : List (IndexedRecipe n)) :
    List RankEntry :=
  idx.map fun r => ⟨r.id, dotProduct q r.vec, r.rating⟩

/-- Modelled from the spec: `rank(queryVector, index, topN)` (§4.4).  A
`topN ≤ 0` request fails; otherwise `topN` is clamped to the corpus size; if
every candidate scores 0 the result is the empty sequence (not an error);
otherwise the candidates are sorted by the deterministic order and the first
`topN` are returned. -/
def rank {n : Nat} (q : Fin n → ℚ) (idx : List (IndexedRecipe n)) (topN : ℤ) :
    Except SearchError (List RankEntry) :=
  if topN ≤ 0 then .error .invalidQuery
  else if (scoreEntries q idx).all (fun e => e.score == 0) then .ok []
  else .ok ((List.insertionSort rankLE (scoreEntries q idx)).take
    (min topN.toNat idx.length))

/-! ### Concrete sample inputs used by witnesses and counterexamples -/

/-- A concrete recipe whose category contains, but does not equal,
a selected category name. -/
def italianFusion : BackendRecipe :=
  { id := "r1", title := "Fusion Pasta", description := "d", image := "i"
    cookTime := 30, servings := 2, rating := 4, category := "Italian-American"
    difficulty := "Easy", ingredients := ["pasta"], instructions := ["cook"]
    nutrition := ⟨none, none, none, none⟩, similarityScore := none }

/-- A concrete unit query vector over a two-token vocabulary. -/
def wq : Fin 2 → ℚ := fun i => if i = 0 then 1 else 0

/-- A concrete two-recipe index: recipe 1 matches the query exactly, recipe
2 shares no token with it. -/
def widx : List (IndexedRecipe 2) :=
  [⟨1, 4, fun i => if i = 0 then 1 else 0⟩, ⟨2, 5, fun i => if i = 1 then 1 else 0⟩]

/-- A concrete unit query vector orthogonal to the recipe below. -/
def cq : Fin 2 → ℚ := fun i => if i = 0 then 1 else 0

/-- A concrete indexed recipe sharing no token with `cq`. -/
def cr : IndexedRecipe 2 := ⟨7, 3, fun i => if i = 1 then 1 else 0⟩

/-! ### Helper lemmas -/

/-- Fragments produced by the run-collapsing split contain no separator
character. -/
theorem splitRuns_no_sep (sep : Char → Bool) :
    ∀ l : List Char, ∀ f ∈ splitRuns sep l, ∀ c ∈ f, sep c = false := by
  intro l
  induction l using splitRuns.induct sep with
  | case1 =>
    intro f hf c hc
    simp [splitRuns] at hf
    subst hf
    simp at hc
  | case2 a ha =>
    intro f hf c hc
    simp only [splitRuns, if_pos ha] at hf
    rcases List.mem_cons.mp hf with rfl | h
    · simp at hc
    · simp at h; subst h; simp at hc
  | case3 a ha =>
    intro f hf c hc
    simp only [splitRuns, if_neg ha] at hf
    rcases List.mem_singleton.mp hf with rfl
    rcases List.mem_singleton.mp hc with rfl
    exact Bool.of_not_eq_true ha
  | case4 a c2 cs ha h2 ih =>
    intro f hf c hc
    simp only [splitRuns, if_pos ha, if_pos h2] at hf
    exact ih f hf c hc
  | case5 a c2 cs ha h2 ih =>
    intro f hf c hc
    simp only [splitRuns, if_pos ha, if_neg h2] at hf
    rcases List.mem_cons.mp hf with rfl | h
    · simp at hc
    · exact ih f h c hc
  | case6 a c2 cs ha ih =>
    intro f hf c hc
    simp only [splitRuns, if_neg ha] at hf
    rcases hsr : splitRuns sep (c2 :: cs) with _ | ⟨g, rest⟩
    · rw [hsr] at hf
      simp [consHead] at hf
      subst hf
      rcases List.mem_singleton.mp hc with rfl
      exact Bool.of_not_eq_true ha
    · rw [hsr] at hf
      simp only [consHead] at hf
      rcases List.mem_cons.mp hf with rfl | h
      · rcases List.mem_cons.mp hc with rfl | h
        · exact Bool.of_not_eq_true ha
        · exact ih g (hsr ▸ List.mem_cons_self g rest) c h
      · exact ih f (hsr ▸ List.mem_cons_of_mem g h) c hc

/-- Every non-separator character of the input lands in some fragment of the
split. -/
theorem splitRuns_covers (sep : Char → Bool) :
    ∀ l : List Char, ∀ c ∈ l, sep c = false → ∃ f ∈ splitRuns sep l, c ∈ f := by
  intro l
  induction l using splitRuns.induct sep with
  | case1 => intro c hc; simp at hc
  | case2 a ha =>
    intro c hc hcs
    rcases List.mem_singleton.mp hc with rfl
    rw [hcs] at ha; simp at ha
  | case3 a ha =>
    intro c hc hcs
    rcases List.mem_singleton.mp hc with rfl
    simp only [splitRuns, if_neg ha]
    exact ⟨[c], List.mem_singleton_self _, List.mem_singleton_self _⟩
  | case4 a c2 cs ha h2 ih =>
    intro c hc hcs
    simp only [splitRuns, if_pos ha, if_pos h2]
    rcases List.mem_cons.mp hc with rfl | hmem
    · rw [hcs] at ha; simp at ha
    · exact ih c hmem hcs
  | case5 a c2 cs ha h2 ih =>
    intro c hc hcs
    simp only [splitRuns, if_pos ha, if_neg h2]
    rcases List.mem_cons.mp hc with rfl | hmem
    · rw [hcs] at ha; simp at ha
    · obtain ⟨f, hf, hcf⟩ := ih c hmem hcs
      exact ⟨f, List.mem_cons_of_mem _ hf, hcf⟩
  | case6 a c2 cs ha ih =>
    intro c hc hcs
    simp only [splitRuns, if_neg ha]
    rcases List.mem_cons.mp hc with rfl | hmem
    · rcases hsr : splitRuns sep (c2 :: cs) with _ | ⟨g, rest⟩
      · exact ⟨[c], by simp [consHead], List.mem_singleton_self _⟩
      · exact ⟨c :: g, by simp [consHead], List.mem_cons_self _ _⟩
    · obtain ⟨f, hf, hcf⟩ := ih c hmem hcs
      rcases hsr : splitRuns sep (c2 :: cs) with _ | ⟨g, rest⟩
      · rw [hsr] at hf; simp at hf
      · rw [hsr] at hf
        rcases List.mem_cons.mp hf with rfl | h
        · exact ⟨a :: f, by simp [consHead], List.mem_cons_of_mem _ hcf⟩
        · exact ⟨f, by simp [consHead, hsr]; exact Or.inr h, hcf⟩

/-- A character not satisfying `p` survives `dropWhile p`. -/
theorem mem_dropWhile_of_not (p : Char → Bool) :
    ∀ l : List Char, ∀ c ∈ l, p c = false → c ∈ l.dropWhile p := by
  intro l
  induction l with
  | nil => intro c hc; simp at hc
  | cons a as ih =>
    intro c hc hcp
    rw [List.dropWhile_cons]
    by_cases ha : p a
    · rw [if_pos ha]
      rcases List.mem_cons.mp hc with rfl | hmem
      · rw [hcp] at ha; simp at ha
      · exact ih c hmem hcp
    · rw [if_neg ha]
      exact hc

/-- Trimming a list containing a non-whitespace character cannot empty it. -/
theorem jsTrimList_ne_nil {l : List Char} {c : Char} (hc : c ∈ l)
    (hcw : jsWhitespace c = false) : jsTrimList l ≠ [] := by
  intro h
  have h1 : c ∈ l.dropWhile jsWhitespace := mem_dropWhile_of_not _ l c hc hcw
  have h2 : c ∈ (l.dropWhile jsWhitespace).reverse := List.mem_reverse.mpr h1
  have h3 : c ∈ (l.dropWhile jsWhitespace).reverse.dropWhile jsWhitespace :=
    mem_dropWhile_of_not _ _ c h2 hcw
  have h4 : c ∈ jsTrimList l := List.mem_reverse.mpr h3
  rw [h] at h4
  simp at h4

/-- `dropWhile` is the identity when no element satisfies the predicate. -/
theorem dropWhile_eq_self_of_none (p : Char → Bool) :
    ∀ l : List Char, (∀ c ∈ l, p c = false) → l.dropWhile p = l := by
  intro l h
  induction l with
  | nil => rfl
  | cons a as ih =>
    rw [List.dropWhile_cons, if_neg (by rw [h a (List.mem_cons_self a as)]; simp)]

/-- Trimming is the identity on a list without whitespace. -/
theorem jsTrimList_of_no_ws {l : List Char}
    (h : ∀ c ∈ l, jsWhitespace c = false) : jsTrimList l = l := by
  unfold jsTrimList
  rw [dropWhile_eq_self_of_none _ l h,
    dropWhile_eq_self_of_none _ l.reverse (fun c hc => h c (List.mem_reverse.mp hc)),
    List.reverse_reverse]

/-- `dropWhile` empties a list whose elements all satisfy the predicate. -/
theorem dropWhile_eq_nil_of_all (p : Char → Bool) :
    ∀ l : List Char, (∀ c ∈ l, p c = true) → l.dropWhile p = [] := by
  intro l h
  induction l with
  | nil => rfl
  | cons a as ih =>
    rw [List.dropWhile_cons, if_pos (h a (List.mem_cons_self a as))]
    exact ih fun c hc => h c (List.mem_cons_of_mem a hc)

/-- A list starts with any of its initial segments. -/
theorem listStarts_append (pat rest : List Char) :
    listStarts (pat ++ rest) pat = true := by
  induction pat with
  | nil => simp [listStarts]
  | cons c cs ih => simp [listStarts, ih]

/-! ### Claim theorems -/

/-- C1: the client-side category filter is a case-insensitive substring
match: for every fetched batch and selected category other than `All`, both
grid variants display exactly the recipes whose lowercased category contains
the lowercased selected category, in their original order (the filtered list
is a sublist of the batch) — and this policy differs materially from the
server's exact case-normalized lookup, which rejects the concrete category
`Italian-American` for the selection `Italian` while the substring filter
keeps it. -/
theorem c1_client_category_filter (recipes : List BackendRecipe)
    (gridRecipes : List CardRecipe) (cat : String) (h : cat ≠ "All") :
    filteredRecipes recipes cat
        = recipes.filter (fun r => jsIncludes (jsToLower r.category) (jsToLower cat))
      ∧ (filteredRecipes recipes cat).Sublist recipes
      ∧ filteredRecipesGrid gridRecipes cat
        = gridRecipes.filter (fun r => jsIncludes (jsToLower r.category) (jsToLower cat))
      ∧ (filteredRecipesGrid gridRecipes cat).Sublist gridRecipes
      ∧ filteredRecipes [italianFusion] "Italian" = [italianFusion]
      ∧ byCategoryExact [italianFusion] "Italian" = [] := by
  refine ⟨?_, ?_, ?_, ?_, ?_, ?_⟩
  · rw [filteredRecipes, if_neg h]
  · rw [filteredRecipes, if_neg h]
    exact List.filter_sublist _
  · rw [filteredRecipesGrid, if_neg h]
  · rw [filteredRecipesGrid, if_neg h]
    exact List.filter_sublist _
  · decide
  · decide

/-- Witness for C1 at a concrete batch and category. -/
theorem c1_client_category_filter_witness :
    filteredRecipes [italianFusion] "Italian" = [italianFusion] :=
  (c1_client_category_filter [italianFusion] [] "Italian" (by decide)).2.2.2.2.1

/-- C3: the search handler distinguishes an ok-but-empty response from a
non-ok response by status and shape: the two outcomes differ (distinct
messages, and only the ok branch replaces the recipe list), and no ok
response — whatever its array length — ever produces the failure outcome. -/
theorem c3_empty_result_not_failure (st : GridState) (results : List BackendRecipe) :
    (applySearchResponse st (.ok [])).error = some noMatchMsg
      ∧ (applySearchResponse st .notOk).error = some searchFailMsg
      ∧ (applySearchResponse st .netError).error = some searchFailMsg
      ∧ noMatchMsg ≠ searchFailMsg
      ∧ (applySearchResponse st (.ok [])).recipes = []
      ∧ (applySearchResponse st .notOk).recipes = st.recipes
      ∧ (applySearchResponse st (.ok results)).error ≠ some searchFailMsg
      ∧ ((applySearchResponse st (.ok results)).error = some noMatchMsg
          ↔ results = []) := by
  refine ⟨rfl, rfl, rfl, by decide, rfl, rfl, ?_, ?_⟩
  · simp only [applySearchResponse]
    by_cases h : results.length = 0
    · rw [if_pos h]
      intro hc
      rw [Option.some.injEq] at hc
      exact absurd hc (by decide)
    · rw [if_neg h]
      intro hc
      exact Option.noConfusion hc
  · simp only [applySearchResponse]
    by_cases h : results.length = 0
    · rw [if_pos h]
      simp [List.length_eq_zero.mp h]
    · rw [if_neg h]
      constructor
      · intro hc
        exact Option.noConfusion hc
      · intro hc
        rw [hc] at h
        simp at h

/-- C7: the frontend never re-ranks: the rendered cards are the server's
batch in server order with some elements removed by the category filter (a
sublist of the converted batch), and with the `All` selection the batch is
rendered unchanged. -/
theorem c7_no_client_ranking (recipes : List BackendRecipe) (cat : String) :
    (renderedCards recipes cat).Sublist (recipes.map convertToRecipeCardFormat)
      ∧ (cat = "All" →
          renderedCards recipes cat = recipes.map convertToRecipeCardFormat) := by
  constructor
  · rw [renderedCards]
    unfold filteredRecipes
    by_cases h : cat = "All"
    · rw [if_pos h]
    · rw [if_neg h]
      exact (List.filter_sublist _).map _
  · intro h
    rw [renderedCards, filteredRecipes, if_pos h]

/-- Witness for C7: with the `All` selection a concrete batch is rendered
unchanged and in order. -/
theorem c7_no_client_ranking_witness :
    renderedCards [italianFusion] "All" = [convertToRecipeCardFormat italianFusion] :=
  (c7_no_client_ranking [italianFusion] "All").2 rfl

/-- C8: a recipe whose similarity score is absent or exactly 0 never shows
the similarity badge, even during an active search, and renders identically
to a recipe with no score at all: both the grid's flag and the card's guard
test the score for truthiness, and 0 is falsy. -/
theorem c8_zero_score_badge_hidden (searchQuery : String) (r : BackendRecipe)
    (h : r.similarityScore = none ∨ r.similarityScore = some 0) :
    badgeRendered (showSimilarityScoreFlag searchQuery r)
        (convertToRecipeCardFormat r) = false
      ∧ ∀ flag : Bool,
          badgeRendered flag (convertToRecipeCardFormat r)
            = badgeRendered flag
                { convertToRecipeCardFormat r with similarityScore := none } := by
  have hnt : numTruthy r.similarityScore = false := by
    rcases h with h | h <;> simp [numTruthy, h]
  have hnone : numTruthy none = false := rfl
  constructor
  · simp [badgeRendered, convertToRecipeCardFormat, hnt]
  · intro flag
    simp [badgeRendered, convertToRecipeCardFormat, hnt, hnone]

/-- Witness for C8: a zero-scored recipe during an active search hides the
badge. -/
theorem c8_zero_score_badge_hidden_witness :
    badgeRendered
      (showSimilarityScoreFlag "chicken"
        { italianFusion with similarityScore := some 0 })
      (convertToRecipeCardFormat { italianFusion with similarityScore := some 0 })
      = false :=
  (c8_zero_score_badge_hidden "chicken"
    { italianFusion with similarityScore := some 0 } (Or.inr rfl)).1

/-- C9: for a similarity score in `[0,1]` the badge text is
`Math.round(score * 100)` — an integer in `[0,100]` — and the color is
green, yellow, orange or red by the fixed thresholds 80, 60 and 40 on
`score * 100`. -/
theorem c9_badge_format (s : ℚ) (h0 : 0 ≤ s) (h1 : s ≤ 1) :
    formatSimilarityScore s = ⌊s * 100 + 1 / 2⌋
      ∧ 0 ≤ formatSimilarityScore s ∧ formatSimilarityScore s ≤ 100
      ∧ (80 ≤ s * 100 → getSimilarityColor s = .green)
      ∧ (60 ≤ s * 100 → s * 100 < 80 → getSimilarityColor s = .yellow)
      ∧ (40 ≤ s * 100 → s * 100 < 60 → getSimilarityColor s = .orange)
      ∧ (s * 100 < 40 → getSimilarityColor s = .red) := by
  refine ⟨rfl, ?_, ?_, ?_, ?_, ?_, ?_⟩
  · rw [formatSimilarityScore]
    apply Int.le_floor.mpr
    push_cast
    linarith
  · rw [formatSimilarityScore]
    have h2 : ⌊(s * 100 + 1 / 2 : ℚ)⌋ < 101 :=
      Int.floor_lt.mpr (by push_cast; linarith)
    omega
  · intro h
    rw [getSimilarityColor, if_pos h]
  · intro ha hb
    rw [getSimilarityColor, if_neg (by linarith), if_pos ha]
  · intro ha hb
    rw [getSimilarityColor, if_neg (by linarith), if_neg (by linarith), if_pos ha]
  · intro h
    rw [getSimilarityColor, if_neg (by linarith), if_neg (by linarith),
      if_neg (by linarith)]

/-- Witness for C9 at the concrete score 0.85: text 85, green badge. -/
theorem c9_badge_format_witness :
    0 ≤ formatSimilarityScore (17 / 20) ∧ formatSimilarityScore (17 / 20) ≤ 100
      ∧ getSimilarityColor (17 / 20) = .green := by
  have h := c9_badge_format (17 / 20) (by norm_num) (by norm_num)
  exact ⟨h.2.1, h.2.2.1, h.2.2.2.1 (by norm_num)⟩

/-- C10: the `RecipeGrid` variant shows `All` plus only the first ten
fetched categories — at most eleven buttons, silently dropping the rest —
while `RecipeGridWithBackend` prepends `All` to the full category list with
no cap. -/
theorem c10_category_cap (cats : List String) :
    allCategories cats = "All" :: cats.take 10
      ∧ (allCategories cats).length = 1 + min 10 cats.length
      ∧ (allCategories cats).length ≤ 11
      ∧ backendCategories cats = "All" :: cats
      ∧ (backendCategories cats).length = cats.length + 1 := by
  refine ⟨rfl, ?_, ?_, rfl, by simp [backendCategories]⟩
  · simp only [allCategories, List.length_cons, List.length_take]
    omega
  · simp only [allCategories, List.length_cons, List.length_take]
    omega

/-- C4 counterexample: the query `","` contains a non-whitespace character
(the comma), is truthy after `trim()`, and so takes the search path — but
splitting and filtering leaves an EMPTY ingredients array, so the POST body
hits the server's 400-class precondition, contrary to the claim that it is
unreachable for every query with a non-whitespace character. -/
theorem c4_counterexample :
    (∃ c ∈ (",").data, jsWhitespace c = false)
      ∧ searchEffectRequest "," = .post "/api/recipes/search" [] 12 := by
  constructor
  · exact ⟨',', by decide, by decide⟩
  · decide

/-- C4 amended: for every query containing at least one character that is
neither whitespace nor a comma, the search POST carries a non-empty
ingredients array with no empty-string elements and `top_n = 12 > 0`; for a
whitespace-only query no search request is sent (the random reload runs
instead).  Queries made only of commas and whitespace, with at least one
comma, are the exception the counterexample exhibits. -/
theorem c4_amended_search_body (q : String) :
    ((∃ c ∈ q.data, sepChar c = false) →
      searchEffectRequest q = .post "/api/recipes/search" (parseIngredients q) 12
        ∧ parseIngredients q ≠ [] ∧ (∀ s ∈ parseIngredients q, s ≠ "")
        ∧ (0 : ℤ) < 12)
      ∧ ((∀ c ∈ q.data, jsWhitespace c = true) →
          searchEffectRequest q = .get "/api/recipes/random?count=50") := by
  constructor
  · rintro ⟨c, hc, hcs⟩
    have hcw : jsWhitespace c = false := by
      unfold sepChar at hcs
      exact (Bool.or_eq_false_iff.mp hcs).2
    have htrim : jsTrim q ≠ "" := by
      intro heq
      apply jsTrimList_ne_nil hc hcw
      exact congrArg String.data heq
    refine ⟨by rw [searchEffectRequest, if_neg htrim], ?_, ?_, by norm_num⟩
    · obtain ⟨f, hf, hcf⟩ := splitRuns_covers sepChar q.data c hc hcs
      have hfw : ∀ d ∈ f, jsWhitespace d = false := fun d hd => by
        have := splitRuns_no_sep sepChar q.data f hf d hd
        unfold sepChar at this
        exact (Bool.or_eq_false_iff.mp this).2
      have hmem : (⟨f⟩ : String) ∈ parseIngredients q := by
        unfold parseIngredients
        rw [List.mem_filter]
        refine ⟨List.mem_map.mpr ⟨f, hf, rfl⟩, ?_⟩
        have htr : jsTrim ⟨f⟩ = ⟨f⟩ := by
          unfold jsTrim
          rw [jsTrimList_of_no_ws hfw]
        rw [htr]
        simp only [decide_eq_true_eq]
        show 0 < f.length
        exact List.length_pos.mpr (List.ne_nil_of_mem hcf)
      exact List.ne_nil_of_mem hmem
    · intro s hs
      unfold parseIngredients at hs
      rw [List.mem_filter] at hs
      intro hempty
      rw [hempty] at hs
      have : jsTrim "" = "" := rfl
      rw [this] at hs
      simp at hs
  · intro h
    have : jsTrim q = "" := by
      unfold jsTrim jsTrimList
      rw [dropWhile_eq_nil_of_all _ _ h]
      rfl
    rw [searchEffectRequest, if_pos this]

/-- Witness for the amended C4 at two concrete queries. -/
theorem c4_amended_search_body_witness :
    searchEffectRequest "chicken, rice"
        = .post "/api/recipes/search" (parseIngredients "chicken, rice") 12
      ∧ parseIngredients "chicken, rice" ≠ []
      ∧ searchEffectRequest " " = .get "/api/recipes/random?count=50" := by
  have h1 := (c4_amended_search_body "chicken, rice").1 ⟨'c', by decide, by decide⟩
  have h2 := (c4_amended_search_body " ").2 (by decide)
  exact ⟨h1.1, h1.2.1, h2⟩

/-- C5 counterexample: the `RecipeGrid` variant's `fetchRecipes` targets
`GET /api/recipes`, which is none of the five endpoints of the spec's HTTP
surface. -/
theorem c5_counterexample :
    requestPath .fetchRecipes = "/api/recipes"
      ∧ specEndpoint "/api/recipes" = false := by
  exact ⟨rfl, by decide⟩

/-- C5 amended: every fetch call site of the presentation layer targets one
of the five spec endpoints, except the `RecipeGrid` variant's initial
`fetchRecipes`, which targets the sixth path `/api/recipes`. -/
theorem c5_amended_endpoints (call : ClientCall) :
    specEndpoint (requestPath call) = true ∨ requestPath call = "/api/recipes" := by
  cases call with
  | loadCategories => left; decide
  | loadInitialRecipes => left; decide
  | searchRandom => left; decide
  | search => left; decide
  | categoryRandom => left; decide
  | byCategory selectedCategory =>
    left
    have hst : listStarts
        ("/api/recipes/by-category/" ++ encodeURIComponent selectedCategory).data
        ("/api/recipes/by-category/").data = true := by
      rw [String.data_append]
      exact listStarts_append _ _
    unfold specEndpoint requestPath
    rw [hst]
    simp
  | fetchRecipes => right; rfl
  | searchByIngredients => left; decide
  | fetchCategories => left; decide

/-- C2 (settled against the spec-modelled Ranker): every successful `rank`
result is sorted by score descending with ties broken by rating descending
then id ascending, and — for query and recipe vectors that are nonnegative
with squared norm at most one, as the Vectorizer produces (unit or zero) —
every returned score lies in `[0, 1]`. -/
theorem c2_rank_sorted_scores_bounded {n : Nat} (q : Fin n → ℚ)
    (idx : List (IndexedRecipe n)) (topN : ℤ) (l : List RankEntry)
    (hq0 : ∀ i, 0 ≤ q i) (hq1 : ∑ i, q i ^ 2 ≤ 1)
    (hv : ∀ r ∈ idx, (∀ i, 0 ≤ r.vec i) ∧ ∑ i, r.vec i ^ 2 ≤ 1)
    (h : rank q idx topN = .ok l) :
    List.Sorted rankLE l ∧ ∀ e ∈ l, 0 ≤ e.score ∧ e.score ≤ 1 := by
  unfold rank at h
  split at h
  · exact absurd h (by simp)
  · split at h
    · rw [Except.ok.injEq] at h
      subst h
      exact ⟨List.sorted_nil, by simp⟩
    · rw [Except.ok.injEq] at h
      subst h
      constructor
      · exact (List.sorted_insertionSort rankLE _).sublist (List.take_sublist _ _)
      · intro e he
        have he2 : e ∈ List.insertionSort rankLE (scoreEntries q idx) :=
          (List.take_sublist _ _).mem he
        have he3 : e ∈ scoreEntries q idx :=
          (List.perm_insertionSort rankLE _).mem_iff.mp he2
        unfold scoreEntries at he3
        rw [List.mem_map] at he3
        obtain ⟨r, hr, rfl⟩ := he3
        obtain ⟨hv0, hv1⟩ := hv r hr
        constructor
        · exact Finset.sum_nonneg fun i _ => mul_nonneg (hq0 i) (hv0 i)
        · have hcs := Finset.sum_mul_sq_le_sq_mul_sq Finset.univ q r.vec
          have hqs : (0 : ℚ) ≤ ∑ i, q i ^ 2 :=
            Finset.sum_nonneg fun i _ => sq_nonneg _
          have hvs : (0 : ℚ) ≤ ∑ i, r.vec i ^ 2 :=
            Finset.sum_nonneg fun i _ => sq_nonneg _
          have hd0 : (0 : ℚ) ≤ dotProduct q r.vec :=
            Finset.sum_nonneg fun i _ => mul_nonneg (hq0 i) (hv0 i)
          have hsq : dotProduct q r.vec ^ 2 ≤ 1 := by
            calc dotProduct q r.vec ^ 2
                ≤ (∑ i, q i ^ 2) * ∑ i, r.vec i ^ 2 := hcs
              _ ≤ 1 := by nlinarith
          nlinarith [hsq, hd0]

/-- Witness for C2 at a concrete two-recipe index and unit query. -/
theorem c2_rank_sorted_scores_bounded_witness :
    List.Sorted rankLE [⟨1, 1, 4⟩, ⟨2, 0, 5⟩]
      ∧ ∀ e ∈ ([⟨1, 1, 4⟩, ⟨2, 0, 5⟩] : List RankEntry),
          0 ≤ e.score ∧ e.score ≤ 1 := by
  apply c2_rank_sorted_scores_bounded wq widx 2
  · intro i
    by_cases h : i = 0 <;> simp [wq, h]
  · norm_num [wq, Fin.sum_univ_two]
  · intro r hr
    rcases List.mem_cons.mp hr with rfl | hr2
    · refine ⟨fun i => ?_, by norm_num [Fin.sum_univ_two]⟩
      by_cases h : i = 0 <;> simp [h]
    · rcases List.mem_singleton.mp hr2 with rfl
      refine ⟨fun i => ?_, by norm_num [Fin.sum_univ_two]⟩
      by_cases h : i = (1 : Fin 2) <;> simp [h]
  · have hse : scoreEntries wq widx = [⟨1, 1, 4⟩, ⟨2, 0, 5⟩] := by
      simp [scoreEntries, dotProduct, wq, widx, Fin.sum_univ_two]
    rw [rank]
    rw [if_neg (by norm_num)]
    simp only [hse]
    norm_num [List.insertionSort, List.orderedInsert, rankLE, widx]

/-- C6 counterexample (settled against the spec-modelled Ranker): with a
legal unit query vector and a one-recipe corpus sharing no token with it,
`top_n = 2` exceeds the corpus size yet `rank` returns the empty list — the
spec's own §4.4 all-zero-scores clause — not the full corpus ranked; so the
claim's universal "returns the full corpus ranked" fails (though no error is
returned). -/
theorem c6_counterexample :
    rank cq [cr] 2 = .ok [] ∧ ([cr] : List (IndexedRecipe 2)).length = 1
      ∧ (∑ i, cq i ^ 2) = 1 ∧ (∑ i, cr.vec i ^ 2) = 1
      ∧ (∀ i, 0 ≤ cq i) ∧ (∀ i, 0 ≤ cr.vec i) := by
  refine ⟨?_, rfl, ?_, ?_, ?_, ?_⟩
  · rw [rank]
    rw [if_neg (by norm_num)]
    have hz : (scoreEntries cq [cr]).all (fun e => e.score == 0) = true := by
      simp [scoreEntries, dotProduct, cq, cr, Fin.sum_univ_two]
    rw [hz]
    simp
  · norm_num [cq, Fin.sum_univ_two]
  · norm_num [cr, Fin.sum_univ_two]
  · intro i
    by_cases h : i = 0 <;> simp [cq, h]
  · intro i
    by_cases h : i = (1 : Fin 2) <;> simp [cr, h]

/-- C6 amended (settled against the spec-modelled Ranker): a `top_n ≤ 0`
request fails with `InvalidQuery`; a `top_n` at least the corpus size, when
not every candidate scores zero, succeeds with the full corpus ranked
(`topN` clamped to the corpus size); in the all-zero case the result is the
empty list, still not an error, per §4.4. -/
theorem c6_amended_boundary {n : Nat} (q : Fin n → ℚ)
    (idx : List (IndexedRecipe n)) (topN : ℤ) :
    (topN ≤ 0 → rank q idx topN = .error .invalidQuery)
      ∧ (0 < topN → (idx.length : ℤ) ≤ topN →
          (¬ ∀ e ∈ scoreEntries q idx, e.score = 0) →
          ∃ l, rank q idx topN = .ok l ∧ l.length = idx.length
            ∧ l.Perm (scoreEntries q idx)) := by
  constructor
  · intro h
    unfold rank
    rw [if_pos h]
  · intro hpos hlen hnz
    have hall : (scoreEntries q idx).all (fun e => e.score == 0) = false := by
      rw [← Bool.not_eq_true, List.all_eq_true]
      intro hc
      exact hnz fun e he => by simpa using hc e he
    have hlen2 : idx.length ≤ topN.toNat := by omega
    have hmin : min topN.toNat idx.length = idx.length := min_eq_right hlen2
    have hslen : (List.insertionSort rankLE (scoreEntries q idx)).length
        = idx.length := by
      rw [(List.perm_insertionSort rankLE _).length_eq]
      simp [scoreEntries]
    refine ⟨List.insertionSort rankLE (scoreEntries q idx), ?_, hslen,
      List.perm_insertionSort rankLE _⟩
    unfold rank
    rw [if_neg (by omega), hall, hmin]
    simp only [Bool.false_eq_true, if_false]
    rw [← hslen, List.take_length]

/-- Witness for the amended C6: a negative `top_n` fails, and `top_n = 5`
over the concrete two-recipe corpus returns it whole. -/
theorem c6_amended_boundary_witness :
    rank wq widx (-1) = .error .invalidQuery
      ∧ ∃ l, rank wq widx 5 = .ok l ∧ l.length = widx.length
          ∧ l.Perm (scoreEntries wq widx) := by
  constructor
  · exact (c6_amended_boundary wq widx (-1)).1 (by norm_num)
  · refine (c6_amended_boundary wq widx 5).2 (by norm_num) (by norm_num [widx]) ?_
    intro hall
    have hse : scoreEntries wq widx = [⟨1, 1, 4⟩, ⟨2, 0, 5⟩] := by
      simp [scoreEntries, dotProduct, wq, widx, Fin.sum_univ_two]
    rw [hse] at hall
    have h1 := hall ⟨1, 1, 4⟩ (List.mem_cons_self _ _)
    simp at h1

end RecipeRec
